import Mathlib

/-!
# Verification of the ai-router provider core

A shallow embedding, in Lean 4, of the provider abstraction and
request-execution layer of the `ai-router` command-line tool:

* model resolution (`BaseProvider.getModel`, `src/providers/index.ts`),
* the retry executor (`BaseProvider.fetchWithRetry`),
* the provider registry (`ProviderRegistry.getProvider`),
* the SSE stream decoder (`parseSSEStream` of the OpenAI/OpenRouter
  adapters and `parseGoogleSSEStream` of the Google adapter),
* cost estimation and the cost guard (`src/utils/pricing.ts`),
* media filename suffixing in the image-generation paths.

TypeScript `string` values become Lean `String`/`List Char`; `undefined`
for optional values becomes `Option`; thrown exceptions become `Except`;
JavaScript number arithmetic in the pricing code is modelled with exact
rationals (`ℚ`); timestamps are integers of milliseconds.  JavaScript
truthiness tests on strings (`if (s)`) are modelled explicitly: a string
is truthy iff it is non-empty and present.
-/

namespace AIRouter

/-- The capability vocabulary from `src/providers/types.ts`:
`"text" | "image" | "audio" | "video" | "embedding"`. -/
inductive Capability where
  | text | image | audio | video | embedding
deriving DecidableEq, Repr

/-- Render a capability the way it appears in error messages. -/
def Capability.toName : Capability → String
  | .text => "text" | .image => "image" | .audio => "audio"
  | .video => "video" | .embedding => "embedding"

/-- Embeds `ProviderError` from `src/utils/errors.ts`: a message, the provider id,
and an optional HTTP status code. -/
structure ProviderErrorE where
  message : String
  provider : Option String
  statusCode : Option Nat
deriving DecidableEq, Repr

/-- The `models` block of `ProviderConfig` (`src/config/types.ts`):
per-capability default model ids, all optional. -/
structure ConfigModels where
  text : Option String := none
  image : Option String := none
  audio : Option String := none
  tts : Option String := none
  video : Option String := none
deriving DecidableEq, Repr

/-- Embeds `ProviderConfig` from `src/config/types.ts` (the fields the verified
core reads: credentials and networking tunables are carried along). -/
structure ProviderConfig where
  apiKey : String
  timeout : Option Nat := none
  maxRetries : Option Nat := none
  models : Option ConfigModels := none
deriving DecidableEq, Repr

/-- JavaScript truthiness of an optional string: `undefined` and `""` are
falsy, every other string is truthy.  This is the test `if (requestModel)`
and `if (configModels[modelKey])` in `BaseProvider.getModel`. -/
def strTruthy : Option String → Bool
  | none => false
  | some s => s ≠ ""

/-- The key of `config.models` consulted for a capability in
`BaseProvider.getModel`: `capability === "embedding" ? "text" : capability`.
(The `tts` key is not consulted by `getModel`.) -/
def configModelFor (ms : ConfigModels) : Capability → Option String
  | .text => ms.text
  | .image => ms.image
  | .audio => ms.audio
  | .video => ms.video
  | .embedding => ms.text

/-- The error thrown by `getModel` when nothing resolves:
`new ProviderError(`No model available for ${capability}`, this.meta.id)`. -/
def noModelAvailableError (capability : Capability) (providerId : String) :
    ProviderErrorE :=
  ⟨"No model available for " ++ capability.toName, some providerId, none⟩

/-- Embeds `BaseProvider.getModel` (`src/providers/index.ts`): requested model if
truthy, else the truthy configured default for the capability's key, else
the head of the adapter's built-in list `getModels capability`, else a
`ProviderError`.  `builtins` is the adapter's `getModels`. -/
def getModel (config : ProviderConfig) (builtins : Capability → List String)
    (providerId : String) (capability : Capability)
    (requestModel : Option String) : Except ProviderErrorE String :=
  if strTruthy requestModel then .ok (requestModel.getD "")
  else
    let configDefault := config.models.bind (fun ms => configModelFor ms capability)
    if strTruthy configDefault then .ok (configDefault.getD "")
    else
      match builtins capability with
      | m :: _ => .ok m
      | [] => .error (noModelAvailableError capability providerId)

/-- Embeds `OpenAIProvider.getModels` (`src/providers/openai/index.ts`). -/
def openaiGetModels : Capability → List String
  | .text => ["gpt-4o", "gpt-4o-mini", "gpt-4-turbo", "gpt-3.5-turbo"]
  | .image => ["dall-e-3", "dall-e-2"]
  | .audio => ["tts-1", "tts-1-hd", "whisper-1"]
  | .video => []
  | .embedding => ["text-embedding-3-large", "text-embedding-3-small"]

/-! ## Retry executor (`BaseProvider.fetchWithRetry`) -/

/-- The retry-budget resolution `retries ?? this.config.maxRetries ?? 3`. -/
def resolveMaxRetries (retries : Option Nat) (configMaxRetries : Option Nat) : Nat :=
  retries.getD (configMaxRetries.getD 3)

/-- Observable trace of one `fetchWithRetry` run: its final outcome (the
error `none` stands for the fallback `new ProviderError("Unknown error")`
thrown when no attempt ever ran), the `Bun.sleep` durations performed in
order (milliseconds), and how many attempts were executed. -/
structure RetryTrace (E R : Type) where
  result : Except (Option E) R
  sleeps : List Nat
  attemptsMade : Nat

/-- The loop of `fetchWithRetry`, with `attempt j` the outcome of the
`j`-th (0-based) execution of the guarded `fetch` body: iteration `i` runs
`attempt i`; success returns it; failure records it as `lastError` and,
when `i < maxRetries - 1`, sleeps `1000 * (i + 1)` ms before the next
iteration.  When the loop exhausts, the recorded `lastError` is thrown. -/
def fetchWithRetryAux {E R : Type} (attempt : Nat → Except E R)
    (maxRetries : Nat) (i : Nat) (lastError : Option E) : RetryTrace E R :=
  if h : i < maxRetries then
    match attempt i with
    | .ok r => ⟨.ok r, [], i + 1⟩
    | .error e =>
      let rest := fetchWithRetryAux attempt maxRetries (i + 1) (some e)
      ⟨rest.result,
       (if i < maxRetries - 1 then [1000 * (i + 1)] else []) ++ rest.sleeps,
       rest.attemptsMade⟩
  else ⟨.error lastError, [], i⟩
termination_by maxRetries - i

/-- Embeds `BaseProvider.fetchWithRetry`: resolve the budget, then run the loop
from attempt 0 with no error recorded yet. -/
def fetchWithRetry {E R : Type} (attempt : Nat → Except E R)
    (retries configMaxRetries : Option Nat) : RetryTrace E R :=
  fetchWithRetryAux attempt (resolveMaxRetries retries configMaxRetries) 0 none

/-! ## Provider registry (`ProviderRegistry`, `src/providers/index.ts`) -/

/-- A live adapter instance as the registry observes it.  `tag` models
JavaScript reference identity (each `factory()` call yields a fresh tag);
`factoryId` records which factory built it; `initialized` and `config`
are the `BaseProvider` fields set by `initialize`. -/
structure ProviderInst where
  tag : Nat
  factoryId : String
  initialized : Bool
  config : Option ProviderConfig
deriving DecidableEq, Repr

/-- Embeds the initialization method of `BaseProvider`: it stores the
config and flips the `initialized` flag. -/
def ProviderInst.applyConfig (p : ProviderInst) (config : ProviderConfig) :
    ProviderInst :=
  { p with config := some config, initialized := true }

/-- Embeds `BaseProvider.ensureInitialized`: throws a `ProviderError` when the
`initialized` flag is still false. -/
def ProviderInst.ensureInitialized (p : ProviderInst) (name : String) :
    Except ProviderErrorE Unit :=
  if p.initialized then .ok ()
  else .error ⟨name ++ " provider not initialized", some p.factoryId, none⟩

/-- Registry state: the instance cache (`providers : Map<string, AIProvider>`),
the set of registered factory ids (`factories`), and a counter supplying
fresh reference tags for newly constructed instances. -/
structure RegistryState where
  providers : List (String × ProviderInst)
  factories : List String
  nextTag : Nat
deriving DecidableEq, Repr

/-- Association-list lookup standing for `Map.get`. -/
def lookupStr {α : Type} (l : List (String × α)) (key : String) : Option α :=
  (l.find? (fun p => p.1 = key)).map Prod.snd

/-- Embeds `ProviderRegistry.getProvider(id, config?)`: return the cached instance
if present; otherwise fail with `ProviderError "Unknown provider: …"` when
no factory is registered for `id`; otherwise construct a fresh instance,
initialize it only when a config was supplied, cache it and return it. -/
def getProvider (s : RegistryState) (id : String)
    (config : Option ProviderConfig) :
    Except ProviderErrorE (ProviderInst × RegistryState) :=
  match lookupStr s.providers id with
  | some cached => .ok (cached, s)
  | none =>
    if id ∈ s.factories then
      let fresh : ProviderInst :=
        ⟨s.nextTag, id, false, none⟩
      let provider :=
        match config with
        | some c => fresh.applyConfig c
        | none => fresh
      .ok (provider,
           { s with providers := (id, provider) :: s.providers,
                    nextTag := s.nextTag + 1 })
    else .error ⟨"Unknown provider: " ++ id, some id, none⟩

/-! ## Pricing, cost estimation and the cost guard (`src/utils/pricing.ts`) -/

/-- Embeds `ModelPricing`: per-1M-token USD prices.  JavaScript numbers are
modelled as exact rationals. -/
structure ModelPricing where
  input : ℚ
  output : ℚ
deriving DecidableEq, Repr

/-- The constant `DEFAULT_PRICING = { input: 10, output: 30 }`. -/
def DEFAULT_PRICING : ModelPricing := ⟨10, 30⟩

/-- The constant `DEFAULT_CACHE_TTL_HOURS = 24`. -/
def DEFAULT_CACHE_TTL_HOURS : Nat := 24

/-- Embeds `PricingCache` (`src/config/types.ts`): last-updated timestamp in ms,
optional TTL in hours, and the model-id → pricing map. -/
structure PricingCache where
  lastUpdated : Nat
  ttlHours : Option Nat
  models : List (String × ModelPricing)
deriving DecidableEq, Repr

/-- Embeds `isPricingCacheValid`: absent cache or falsy (`0`) `lastUpdated` is
invalid; otherwise valid iff `now - lastUpdated < (ttlHours ?? 24) * 3600000`.
`now` is `Date.now()` passed explicitly; the subtraction is over ℤ as in
JavaScript. -/
def isPricingCacheValid (cache : Option PricingCache) (now : Nat) : Bool :=
  match cache with
  | none => false
  | some c =>
    if c.lastUpdated = 0 then false
    else decide ((now : ℤ) - c.lastUpdated <
      (c.ttlHours.getD DEFAULT_CACHE_TTL_HOURS : ℤ) * 60 * 60 * 1000)

/-- The slice of `RouterConfig` the pricing code reads. -/
structure RouterConfigP where
  pricing : Option PricingCache
deriving DecidableEq, Repr

/-- Embeds `ensurePricingAvailable(config, apiKey)`: return the existing cache
when valid, else the result of one full refresh (`fetchAndCachePricing`,
whose network result is passed in as `fetched`).  The boolean records
whether a refresh was performed. -/
def ensurePricingAvailable (config : RouterConfigP) (now : Nat)
    (fetched : PricingCache) : PricingCache × Bool :=
  if isPricingCacheValid config.pricing now then
    (config.pricing.getD fetched, false)
  else (fetched, true)

/-- Embeds `getModelPricing(model, cache?)`: the cache entry for `model` when
present, otherwise `DEFAULT_PRICING`. -/
def getModelPricing (model : String) (cache : Option PricingCache) :
    ModelPricing :=
  match cache.bind (fun c => lookupStr c.models model) with
  | some p => p
  | none => DEFAULT_PRICING

/-- Embeds `CostEstimate` (`src/utils/pricing.ts`). -/
structure CostEstimate where
  model : String
  inputTokens : Nat
  estimatedOutputTokens : Nat
  inputCost : ℚ
  outputCost : ℚ
  totalCost : ℚ
  isEstimate : Bool
deriving DecidableEq, Repr

/-- Embeds `estimateCost(model, prompt, systemPrompt?, expectedOutputTokens=1000,
cache?)`.  The token counter `tok` stands for `estimateTokens`, which
delegates to the external `js-tiktoken` library (not part of this
repository); every theorem below quantifies over it.  The input text is
`(systemPrompt ?? "") + prompt`. -/
def estimateCost (tok : String → Nat) (model : String) (prompt : String)
    (systemPrompt : Option String) (expectedOutputTokens : Nat)
    (cache : Option PricingCache) : CostEstimate :=
  let pricing := getModelPricing model cache
  let inputText := systemPrompt.getD "" ++ prompt
  let inputTokens := tok inputText
  let inputCost := ((inputTokens : ℚ) / 1000000) * pricing.input
  let outputCost := ((expectedOutputTokens : ℚ) / 1000000) * pricing.output
  let totalCost := inputCost + outputCost
  let isEstimate := (cache.bind (fun c => lookupStr c.models model)).isNone
  ⟨model, inputTokens, expectedOutputTokens, inputCost, outputCost,
   totalCost, isEstimate⟩

/-- Embeds `CostLimitExceededError`: carries the estimate and the ceiling. -/
structure CostLimitExceededError where
  estimate : CostEstimate
  maxCost : ℚ
deriving DecidableEq, Repr

/-- Embeds `checkCostLimit(estimate, maxCost)`: throws iff `maxCost > 0` and
`estimate.totalCost > maxCost`. -/
def checkCostLimit (estimate : CostEstimate) (maxCost : ℚ) :
    Except CostLimitExceededError Unit :=
  if maxCost > 0 ∧ estimate.totalCost > maxCost then
    .error ⟨estimate, maxCost⟩
  else .ok ()

/-! ## A JSON value model for `JSON.parse`

The SSE decoders call the JavaScript built-in `JSON.parse` on each
`data: ` payload and then walk the result with optional chaining.  We
embed `JSON.parse` as a recursive-descent parser over `List Char`
following the JSON grammar (objects, arrays, strings with escapes,
numbers, `true`/`false`/`null`); any input it cannot parse is the
`SyntaxError` branch, i.e. `none`. -/

/-- JSON values.  Numbers keep their validated lexeme: the decoders never
do arithmetic on them. -/
inductive JValue where
  | jnull
  | jbool (b : Bool)
  | jnum (lex : List Char)
  | jstr (s : List Char)
  | jarr (items : List JValue)
  | jobj (fields : List (List Char × JValue))

/-- JSON insignificant whitespace. -/
def isJsonWs (c : Char) : Bool :=
  c = ' ' || c = '\t' || c = '\n' || c = '\r'

/-- Drop leading JSON whitespace. -/
def skipWs (l : List Char) : List Char := l.dropWhile isJsonWs

/-- Decimal digit test. -/
def isDigitC (c : Char) : Bool := '0' ≤ c && c ≤ '9'

/-- Hexadecimal digit value, for `\uXXXX` escapes. -/
def hexVal (c : Char) : Option Nat :=
  if '0' ≤ c && c ≤ '9' then some (c.toNat - 48)
  else if 'a' ≤ c && c ≤ 'f' then some (c.toNat - 87)
  else if 'A' ≤ c && c ≤ 'F' then some (c.toNat - 55)
  else none

/-- Single-character JSON escapes. -/
def escChar : Char → Option Char
  | '"' => some '"'
  | '\\' => some '\\'
  | '/' => some '/'
  | 'b' => some (Char.ofNat 8)
  | 'f' => some (Char.ofNat 12)
  | 'n' => some '\n'
  | 'r' => some '\r'
  | 't' => some '\t'
  | _ => none

/-- Parse the body of a JSON string after the opening quote; returns the
decoded content and the remainder after the closing quote. -/
def parseStringBody : List Char → Option (List Char × List Char)
  | [] => none
  | '"' :: rest => some ([], rest)
  | '\\' :: 'u' :: h1 :: h2 :: h3 :: h4 :: rest =>
    match hexVal h1, hexVal h2, hexVal h3, hexVal h4 with
    | some a, some b, some c, some d =>
      (parseStringBody rest).map
        (fun p => (Char.ofNat (((a * 16 + b) * 16 + c) * 16 + d) :: p.1, p.2))
    | _, _, _, _ => none
  | '\\' :: e :: rest =>
    match escChar e with
    | some c => (parseStringBody rest).map (fun p => (c :: p.1, p.2))
    | none => none
  | c :: rest => (parseStringBody rest).map (fun p => (c :: p.1, p.2))

/-- Expect a literal character sequence, returning the remainder. -/
def expectLit : List Char → List Char → Option (List Char)
  | [], rest => some rest
  | _ :: _, [] => none
  | c :: cs, d :: rest => if c = d then expectLit cs rest else none

/-- Parse a JSON number lexeme (`-?int(.frac)?((e|E)(+|-)?digits)?`),
returning the lexeme and the remainder. -/
def parseNumber (l : List Char) : Option (List Char × List Char) :=
  let (sign, afterSign) :=
    match l with
    | '-' :: r => (['-'], r)
    | _ => (([] : List Char), l)
  let intPart := afterSign.takeWhile isDigitC
  if intPart = [] then none
  else
    let rest1 := afterSign.drop intPart.length
    let (fracPart, rest2) :=
      match rest1 with
      | '.' :: r =>
        let d := r.takeWhile isDigitC
        if d = [] then (none, rest1) else (some ('.' :: d), r.drop d.length)
      | _ => (none, rest1)
    match fracPart, rest1 with
    | none, '.' :: _ => none
    | _, _ =>
      let (expPart, rest3) :=
        match rest2 with
        | e :: r =>
          if e = 'e' || e = 'E' then
            let (es, r2) :=
              match r with
              | '+' :: r2 => (['+'], r2)
              | '-' :: r2 => (['-'], r2)
              | _ => (([] : List Char), r)
            let d := r2.takeWhile isDigitC
            if d = [] then (none, rest2)
            else (some (e :: es ++ d), r2.drop d.length)
          else (none, rest2)
        | _ => (none, rest2)
      match expPart, rest2 with
      | none, e :: _ =>
        if e = 'e' || e = 'E' then none
        else some (sign ++ intPart ++ (fracPart.getD []) ++ [], rest2)
      | _, _ =>
        some (sign ++ intPart ++ (fracPart.getD []) ++ (expPart.getD []), rest3)

mutual

/-- Parse one JSON value (fuelled recursive descent). -/
def parseVal : Nat → List Char → Option (JValue × List Char)
  | 0, _ => none
  | fuel + 1, input =>
    match skipWs input with
    | [] => none
    | 'n' :: rest => (expectLit "ull".data rest).map (fun r => (JValue.jnull, r))
    | 't' :: rest => (expectLit "rue".data rest).map (fun r => (JValue.jbool true, r))
    | 'f' :: rest => (expectLit "alse".data rest).map (fun r => (JValue.jbool false, r))
    | '"' :: rest => (parseStringBody rest).map (fun p => (JValue.jstr p.1, p.2))
    | '{' :: rest =>
      match skipWs rest with
      | '}' :: r2 => some (JValue.jobj [], r2)
      | other => parseMembers fuel other []
    | '[' :: rest =>
      match skipWs rest with
      | ']' :: r2 => some (JValue.jarr [], r2)
      | other => parseItems fuel other []
    | c :: rest =>
      if c = '-' || isDigitC c then
        (parseNumber (c :: rest)).map (fun p => (JValue.jnum p.1, p.2))
      else none

/-- Parse the members of a JSON object after `{` (non-empty case). -/
def parseMembers : Nat → List Char → List (List Char × JValue) →
    Option (JValue × List Char)
  | 0, _, _ => none
  | fuel + 1, input, acc =>
    match skipWs input with
    | '"' :: rest =>
      match parseStringBody rest with
      | none => none
      | some (key, r1) =>
        match skipWs r1 with
        | ':' :: r2 =>
          match parseVal fuel r2 with
          | none => none
          | some (v, r3) =>
            match skipWs r3 with
            | ',' :: r4 => parseMembers fuel r4 (acc ++ [(key, v)])
            | '}' :: r4 => some (JValue.jobj (acc ++ [(key, v)]), r4)
            | _ => none
        | _ => none
    | _ => none

/-- Parse the items of a JSON array after `[` (non-empty case). -/
def parseItems : Nat → List Char → List JValue → Option (JValue × List Char)
  | 0, _, _ => none
  | fuel + 1, input, acc =>
    match parseVal fuel input with
    | none => none
    | some (v, r1) =>
      match skipWs r1 with
      | ',' :: r2 => parseItems fuel r2 (acc ++ [v])
      | ']' :: r2 => some (JValue.jarr (acc ++ [v]), r2)
      | _ => none

end

/-- Embeds `JSON.parse`: parse one value, allow trailing whitespace only. -/
def jsonParse (l : List Char) : Option JValue :=
  match parseVal (l.length + 1) l with
  | some (v, rest) => if skipWs rest = [] then some v else none
  | none => none

/-- Property access `obj.key` / `obj?.key`: `none` off objects.  Later
duplicate keys overwrite earlier ones, as in JavaScript. -/
def JValue.field? : JValue → List Char → Option JValue
  | .jobj fields, key => (fields.reverse.find? (fun p => p.1 = key)).map Prod.snd
  | _, _ => none

/-- Index access `arr?.[i]`: `none` off arrays or out of range. -/
def JValue.item? : JValue → Nat → Option JValue
  | .jarr items, i => items.get? i
  | _, _ => none

/-- The final `if (content) yield content` step: only a non-empty JSON
string is both truthy and a text chunk. -/
def JValue.asTruthyString? : JValue → Option String
  | .jstr s => if s = [] then none else some (String.mk s)
  | _ => none

/-! ## SSE stream decoders -/

/-- The path `json.choices?.[0]?.delta?.content` of the OpenAI/OpenRouter decoders,
truthiness-filtered. -/
def chatDeltaContent (j : JValue) : Option String :=
  ((((j.field? "choices".data).bind (JValue.item? · 0)).bind
      (JValue.field? · "delta".data)).bind
      (JValue.field? · "content".data)).bind JValue.asTruthyString?

/-- The path `json.candidates?.[0]?.content?.parts?.[0]?.text` of the Google
decoder, truthiness-filtered. -/
def googleDeltaText (j : JValue) : Option String :=
  ((((((j.field? "candidates".data).bind (JValue.item? · 0)).bind
      (JValue.field? · "content".data)).bind
      (JValue.field? · "parts".data)).bind (JValue.item? · 0)).bind
      (JValue.field? · "text".data)).bind JValue.asTruthyString?

/-- One complete line of `OpenAIProvider.parseSSEStream` /
`OpenRouterProvider.parseSSEStream` (identical bodies): significant iff it
starts with `"data: "` and is not the sentinel `"data: [DONE]"`; the
payload after the 6-character prefix is JSON-parsed, malformed JSON is
skipped, and the truthy delta content (if any) is yielded. -/
def processLineChat (line : List Char) : Option String :=
  if "data: ".data.isPrefixOf line && line ≠ "data: [DONE]".data then
    match jsonParse (line.drop 6) with
    | some j => chatDeltaContent j
    | none => none
  else none

/-- One complete line of `GoogleProvider.parseGoogleSSEStream`: same
structure, no `[DONE]` sentinel check, Google's candidate path. -/
def processLineGoogle (line : List Char) : Option String :=
  if "data: ".data.isPrefixOf line then
    match jsonParse (line.drop 6) with
    | some j => googleDeltaText j
    | none => none
  else none

/-- The step `buffer.split("\n")` followed by `buffer = lines.pop() ?? ""`:
all complete lines, and the trailing fragment kept as the new buffer. -/
def splitNL : List Char → List (List Char) × List Char
  | [] => ([], [])
  | '\n' :: rest =>
    let (ls, buf) := splitNL rest
    ([] :: ls, buf)
  | c :: rest =>
    match splitNL rest with
    | ([], buf) => ([], c :: buf)
    | (l :: ls, buf) => ((c :: l) :: ls, buf)

/-- One iteration of the decoder loop on a decoded chunk: append to the
buffer, split off the complete lines, process each in order. -/
def sseStep (procLine : List Char → Option String) (buf chunk : List Char) :
    List Char × List String :=
  ((splitNL (buf ++ chunk)).2, (splitNL (buf ++ chunk)).1.filterMap procLine)

/-- The decoder loop over the whole chunk sequence; when the source
signals `done` the loop exits, discarding whatever is left in `buf`. -/
def sseRunAux (procLine : List Char → Option String) :
    List Char → List (List Char) → List String
  | _, [] => []
  | buf, c :: cs =>
    (sseStep procLine buf c).2 ++ sseRunAux procLine (sseStep procLine buf c).1 cs

/-- Embeds `OpenAIProvider.parseSSEStream` and
`OpenRouterProvider.parseSSEStream` over a finite chunk sequence: the list of yielded text chunks. -/
def parseSSEStream (chunks : List (List Char)) : List String :=
  sseRunAux processLineChat [] chunks

/-- Embeds `GoogleProvider.parseGoogleSSEStream` over a finite chunk sequence. -/
def parseGoogleSSEStream (chunks : List (List Char)) : List String :=
  sseRunAux processLineGoogle [] chunks

/-! ## Image filename suffixing -/

/-- Fuelled digit expansion (structural, so the kernel can evaluate it);
`fuel > n` always suffices. -/
def natDigitsAux : Nat → Nat → List Char
  | 0, _ => []
  | fuel + 1, n =>
    if n < 10 then [Char.ofNat (48 + n)]
    else natDigitsAux fuel (n / 10) ++ [Char.ofNat (48 + n % 10)]

/-- Decimal digit characters of a natural number, as produced by the
template interpolation `${index}`. -/
def natDigits (n : Nat) : List Char := natDigitsAux (n + 1) n

/-- Split a filename at the match of the regex `(\.[^.]+)$`: the last dot
followed by a non-empty run of non-dot characters.  `none` when the regex
does not match (no dot, or nothing after the last dot). -/
def splitLastDot (s : List Char) : Option (List Char × List Char) :=
  let rev := s.reverse
  let extRev := rev.takeWhile (fun c => c ≠ '.')
  if extRev = [] then none
  else
    match rev.drop extRev.length with
    | '.' :: stemRev => some (stemRev.reverse, extRev.reverse)
    | _ => none

/-- The step `outputPath.replace(/(\.[^.]+)$/, `_${index}$1`)`: insert `_index`
before the extension; a name the regex does not match is unchanged. -/
def suffixFilename (s : String) (i : Nat) : String :=
  match splitLastDot s.data with
  | none => s
  | some (stem, ext) => String.mk (stem ++ '_' :: natDigits i ++ '.' :: ext)

/-- The filenames handed to `saveMedia` by `OpenAIProvider.generateImage`
and `GoogleProvider.generateImage` for `n` returned results: with a truthy
output path, result `i` is saved as the suffixed name when `n > 1` and as
the exact requested name when `n = 1`; with no output path nothing is
saved (`none`). -/
def suffixedImageFilenames (outputPath : Option String) (n : Nat) :
    List (Option String) :=
  (List.range n).map (fun i =>
    if strTruthy outputPath then
      some (if 1 < n then suffixFilename (outputPath.getD "") i
            else outputPath.getD "")
    else none)

/-- The filenames handed to `saveMedia` by
`OpenRouterProvider.generateImage` when the vendor returns `n` inline
data-URI images: every result is saved under the exact requested name. -/
def openrouterImageFilenames (outputPath : Option String) (n : Nat) :
    List (Option String) :=
  (List.range n).map (fun _ =>
    if strTruthy outputPath then some (outputPath.getD "") else none)

/-! ## Helper lemmas -/

/-- Looking an id up right after consing its entry finds that entry. -/
theorem lookupStr_cons_self {α : Type} (l : List (String × α)) (id : String)
    (a : α) : lookupStr ((id, a) :: l) id = some a := by
  simp [lookupStr, List.find?]

/-- Once `getProvider` has returned an instance, any later `getProvider`
call for the same id — whatever config it carries — returns the identical
instance and leaves the registry state unchanged. -/
theorem getProvider_idempotent (s : RegistryState) (id : String)
    (cfg cfg' : Option ProviderConfig) (p : ProviderInst) (s' : RegistryState)
    (h : getProvider s id cfg = .ok (p, s')) :
    getProvider s' id cfg' = .ok (p, s') := by
  unfold getProvider at h ⊢
  cases hl : lookupStr s.providers id with
  | some cached =>
    rw [hl] at h
    obtain ⟨rfl, rfl⟩ : cached = p ∧ s = s' := by
      simpa using h
    rw [hl]
  | none =>
    rw [hl] at h
    by_cases hf : id ∈ s.factories
    · simp only [hf, if_true] at h
      obtain ⟨hp, hs⟩ : _ ∧ _ := by simpa using h
      subst hp
      rw [← hs]
      simp [lookupStr_cons_self]
    · simp [hf] at h

/-! ## C1 — model resolution precedence -/

/-- C1 (counterexample): the requested model `some ""` *is* supplied, yet
`getModel` does not return it verbatim — JavaScript truthiness makes the
empty string fall through to the configured default `"m2"`. -/
theorem getModel_empty_request_counterexample :
    getModel ⟨"key", none, none, some { text := some "m2" }⟩
      (fun _ => ["m3"]) "openai" .text (some "") = .ok "m2" ∧
    ("m2" : String) ≠ "" :=
  ⟨rfl, by decide⟩

/-- C1 (amended): for every adapter (`builtins`), capability and config,
`getModel` returns a *non-empty* requested model verbatim; otherwise the
non-empty configured default for the capability's config key; otherwise
the head of the adapter's built-in default list; otherwise it fails with
the `ProviderError` "No model available for …" (the spec's
`NoModelAvailableError`). -/
theorem getModel_precedence (config : ProviderConfig)
    (builtins : Capability → List String) (pid : String) (cap : Capability)
    (req : Option String) :
    (∀ m, req = some m → m ≠ "" →
      getModel config builtins pid cap req = .ok m) ∧
    (strTruthy req = false → ∀ d,
      config.models.bind (fun ms => configModelFor ms cap) = some d → d ≠ "" →
      getModel config builtins pid cap req = .ok d) ∧
    (strTruthy req = false →
      strTruthy (config.models.bind (fun ms => configModelFor ms cap)) = false →
      ∀ m ms, builtins cap = m :: ms →
      getModel config builtins pid cap req = .ok m) ∧
    (strTruthy req = false →
      strTruthy (config.models.bind (fun ms => configModelFor ms cap)) = false →
      builtins cap = [] →
      getModel config builtins pid cap req =
        .error (noModelAvailableError cap pid)) := by
  refine ⟨?_, ?_, ?_, ?_⟩
  · intro m hm hne
    subst hm
    have ht : strTruthy (some m) = true := by simp [strTruthy, hne]
    simp only [getModel, ht, if_true, Option.getD_some]
  · intro hreq d hd hne
    have ht : strTruthy (some d) = true := by simp [strTruthy, hne]
    simp only [getModel, hreq, Bool.false_eq_true, if_false, hd, ht, if_true,
      Option.getD_some]
  · intro hreq hcfg m ms hb
    simp only [getModel, hreq, hcfg, Bool.false_eq_true, if_false, hb]
  · intro hreq hcfg hb
    simp only [getModel, hreq, hcfg, Bool.false_eq_true, if_false, hb]

/-- Witness for C1: the three concrete precedence triples of the claim,
plus the failure case, obtained from `getModel_precedence`. -/
theorem getModel_precedence_witness :
    getModel ⟨"key", none, none, some { text := some "m2" }⟩
      (fun _ => ["m3"]) "openai" .text (some "m1") = .ok "m1" ∧
    getModel ⟨"key", none, none, some { text := some "m2" }⟩
      (fun _ => ["m3"]) "openai" .text none = .ok "m2" ∧
    getModel ⟨"key", none, none, none⟩
      (fun _ => ["m3"]) "openai" .text none = .ok "m3" ∧
    getModel ⟨"key", none, none, none⟩
      (fun _ => []) "openai" .text none =
      .error (noModelAvailableError .text "openai") :=
  ⟨(getModel_precedence ⟨"key", none, none, some { text := some "m2" }⟩
      (fun _ => ["m3"]) "openai" .text (some "m1")).1 "m1" rfl (by decide),
   (getModel_precedence ⟨"key", none, none, some { text := some "m2" }⟩
      (fun _ => ["m3"]) "openai" .text none).2.1 rfl "m2" rfl (by decide),
   (getModel_precedence ⟨"key", none, none, none⟩
      (fun _ => ["m3"]) "openai" .text none).2.2.1 rfl rfl "m3" [] rfl,
   (getModel_precedence ⟨"key", none, none, none⟩
      (fun _ => []) "openai" .text none).2.2.2 rfl rfl rfl⟩

/-! ## C4 — cost estimation arithmetic and pricing fallback -/

/-- C4: `estimateCost` computes `inputCost = inputTokens/1e6 * inputPrice`,
`outputCost = assumedOutputTokens/1e6 * outputPrice` and their sum, with
prices from the cache entry when present (`isEstimate = false`) and the
default `{10, 30}` otherwise (`isEstimate = true`); concretely, cached
prices `{5, 15}`, 100 input tokens and a 1000-token output budget give
costs `0.0005`, `0.015`, `0.0155` with `isEstimate = false`. -/
theorem estimateCost_spec (tok : String → Nat) (model prompt : String)
    (sys : Option String) (out : Nat) (cache : Option PricingCache) :
    (estimateCost tok model prompt sys out cache).inputTokens =
      tok (sys.getD "" ++ prompt) ∧
    (estimateCost tok model prompt sys out cache).inputCost =
      ((tok (sys.getD "" ++ prompt) : ℚ) / 1000000) *
        (getModelPricing model cache).input ∧
    (estimateCost tok model prompt sys out cache).outputCost =
      ((out : ℚ) / 1000000) * (getModelPricing model cache).output ∧
    (estimateCost tok model prompt sys out cache).totalCost =
      (estimateCost tok model prompt sys out cache).inputCost +
        (estimateCost tok model prompt sys out cache).outputCost ∧
    (estimateCost tok model prompt sys out cache).estimatedOutputTokens = out ∧
    (∀ p, cache.bind (fun c => lookupStr c.models model) = some p →
      getModelPricing model cache = p ∧
      (estimateCost tok model prompt sys out cache).isEstimate = false) ∧
    (cache.bind (fun c => lookupStr c.models model) = none →
      getModelPricing model cache = DEFAULT_PRICING ∧
      (estimateCost tok model prompt sys out cache).isEstimate = true) ∧
    ((estimateCost (fun _ => 100) "m" "p" none 1000
        (some ⟨1, some 24, [("m", ⟨5, 15⟩)]⟩)).inputCost = (0.0005 : ℚ) ∧
      (estimateCost (fun _ => 100) "m" "p" none 1000
        (some ⟨1, some 24, [("m", ⟨5, 15⟩)]⟩)).outputCost = (0.015 : ℚ) ∧
      (estimateCost (fun _ => 100) "m" "p" none 1000
        (some ⟨1, some 24, [("m", ⟨5, 15⟩)]⟩)).totalCost = (0.0155 : ℚ) ∧
      (estimateCost (fun _ => 100) "m" "p" none 1000
        (some ⟨1, some 24, [("m", ⟨5, 15⟩)]⟩)).isEstimate = false) := by
  refine ⟨rfl, rfl, rfl, rfl, rfl, ?_, ?_, ?_, ?_, ?_, ?_⟩
  · intro p hp
    exact ⟨by simp [getModelPricing, hp], by simp [estimateCost, hp]⟩
  · intro hn
    exact ⟨by simp [getModelPricing, hn], by simp [estimateCost, hn]⟩
  · norm_num [estimateCost, getModelPricing, lookupStr, List.find?]
  · norm_num [estimateCost, getModelPricing, lookupStr, List.find?]
  · norm_num [estimateCost, getModelPricing, lookupStr, List.find?]
  · simp [estimateCost, lookupStr, List.find?]

/-- Witness for C4: the cached-pricing branch applied to the concrete
cache of the claim. -/
theorem estimateCost_spec_witness :
    getModelPricing "m" (some ⟨1, some 24, [("m", ⟨5, 15⟩)]⟩) =
      (⟨5, 15⟩ : ModelPricing) ∧
    (estimateCost (fun _ => 100) "m" "p" none 1000
      (some ⟨1, some 24, [("m", ⟨5, 15⟩)]⟩)).isEstimate = false :=
  (estimateCost_spec (fun _ => 100) "m" "p" none 1000
    (some ⟨1, some 24, [("m", ⟨5, 15⟩)]⟩)).2.2.2.2.2.1 ⟨5, 15⟩ (by simp [lookupStr, List.find?])

/-! ## C5 — cost guard trigger condition -/

/-- The guard errors exactly when the ceiling is positive and exceeded. -/
theorem checkCostLimit_error_iff (e : CostEstimate) (m : ℚ) :
    checkCostLimit e m = .error ⟨e, m⟩ ↔ 0 < m ∧ m < e.totalCost := by
  unfold checkCostLimit
  split
  · rename_i h
    simp only [true_iff]
    exact ⟨h.1, h.2⟩
  · rename_i h
    simp only [reduceCtorEq, false_iff]
    intro hc
    exact h ⟨hc.1, hc.2⟩

/-- C5: `checkCostLimit` raises `CostLimitExceededError` — carrying the
estimate and the ceiling — iff the ceiling is positive and strictly below
the total cost; a ceiling of `0` never raises; and the claim's concrete
instance (`ceiling = 0.01`, `totalCost = 0.0155`) raises. -/
theorem checkCostLimit_spec (e : CostEstimate) (m : ℚ) :
    (checkCostLimit e m = .error ⟨e, m⟩ ↔ 0 < m ∧ m < e.totalCost) ∧
    (m = 0 → checkCostLimit e m = .ok ()) ∧
    checkCostLimit (estimateCost (fun _ => 100) "m" "p" none 1000
        (some ⟨1, some 24, [("m", ⟨5, 15⟩)]⟩)) (0.01 : ℚ) =
      .error ⟨estimateCost (fun _ => 100) "m" "p" none 1000
        (some ⟨1, some 24, [("m", ⟨5, 15⟩)]⟩), 0.01⟩ := by
  refine ⟨checkCostLimit_error_iff e m, ?_, ?_⟩
  · rintro rfl
    simp [checkCostLimit]
  · rw [checkCostLimit_error_iff]
    constructor
    · norm_num
    · norm_num [estimateCost, getModelPricing, lookupStr, List.find?]

/-- Witness for C5: a zero ceiling never raises, even with a large total
cost. -/
theorem checkCostLimit_spec_witness :
    checkCostLimit ⟨"m", 100, 1000, 1, 1, 99, true⟩ 0 = .ok () :=
  (checkCostLimit_spec ⟨"m", 100, 1000, 1, 1, 99, true⟩ 0).2.1 rfl

/-! ## C6 — registry caching and unknown ids -/

/-- C6: a second `getProvider` call for an id already returned — with any
config, even a different one — returns the identical cached instance
without touching the state (so at most one live instance per id exists and
the first initialization wins); and an id with no registered factory and
no cache entry always fails with the unknown-provider `ProviderError`. -/
theorem getProvider_cached_and_unknown (s : RegistryState) (id : String)
    (cfg cfg' : Option ProviderConfig) :
    (∀ p s', getProvider s id cfg = .ok (p, s') →
      getProvider s' id cfg' = .ok (p, s')) ∧
    (lookupStr s.providers id = none → id ∉ s.factories →
      getProvider s id cfg = .error ⟨"Unknown provider: " ++ id, some id, none⟩) := by
  constructor
  · intro p s' h
    exact getProvider_idempotent s id cfg cfg' p s' h
  · intro h1 h2
    simp [getProvider, h1, h2]

/-- Witness for C6: in the freshly constructed registry, requesting
`"openai"` twice — the second time with a different config — returns the
very instance cached by the first call, and a never-registered id fails. -/
theorem getProvider_cached_and_unknown_witness :
    getProvider ⟨[("openai", ⟨0, "openai", true,
        some ⟨"k1", none, none, none⟩⟩)], ["openai", "google", "openrouter"], 1⟩
      "openai" (some ⟨"k2", none, none, none⟩) =
      .ok (⟨0, "openai", true, some ⟨"k1", none, none, none⟩⟩,
        ⟨[("openai", ⟨0, "openai", true, some ⟨"k1", none, none, none⟩⟩)],
         ["openai", "google", "openrouter"], 1⟩) ∧
    getProvider ⟨[], ["openai", "google", "openrouter"], 0⟩ "nope" none =
      .error ⟨"Unknown provider: " ++ "nope", some "nope", none⟩ :=
  ⟨(getProvider_cached_and_unknown
      ⟨[], ["openai", "google", "openrouter"], 0⟩ "openai"
      (some ⟨"k1", none, none, none⟩) (some ⟨"k2", none, none, none⟩)).1
      _ _ rfl,
   (getProvider_cached_and_unknown
      ⟨[], ["openai", "google", "openrouter"], 0⟩ "nope" none none).2 rfl
      (by decide)⟩

/-! ## C9 — a config-less first call caches an uninitialized adapter -/

/-- C9: when the first `getProvider` call for an id supplies no config,
the cached instance has `initialized = false`; every later call — even
with a config — returns that same instance unchanged, and its
`ensureInitialized` guard fails with the not-initialized `ProviderError`
for the process lifetime. -/
theorem getProvider_no_config_never_initialized (s : RegistryState)
    (id nm : String) (cfg' : Option ProviderConfig) :
    lookupStr s.providers id = none → id ∈ s.factories →
    ∀ p s', getProvider s id none = .ok (p, s') →
      p.initialized = false ∧
      getProvider s' id cfg' = .ok (p, s') ∧
      ProviderInst.ensureInitialized p nm =
        .error ⟨nm ++ " provider not initialized", some p.factoryId, none⟩ := by
  intro h1 h2 p s' h
  have hp : p = ⟨s.nextTag, id, false, none⟩ := by
    unfold getProvider at h
    rw [h1] at h
    simp [h2] at h
    exact h.1.symm
  refine ⟨by rw [hp], getProvider_idempotent s id none cfg' p s' h, ?_⟩
  rw [hp]
  rfl

/-- Witness for C9: a first config-less request for `"google"` caches an
uninitialized instance; re-requesting with a config returns it untouched
and its capability guard fails. -/
theorem getProvider_no_config_never_initialized_witness :
    (⟨0, "google", false, none⟩ : ProviderInst).initialized = false ∧
    getProvider ⟨[("google", ⟨0, "google", false, none⟩)],
        ["openai", "google", "openrouter"], 1⟩
      "google" (some ⟨"k2", none, none, none⟩) =
      .ok (⟨0, "google", false, none⟩,
        ⟨[("google", ⟨0, "google", false, none⟩)],
         ["openai", "google", "openrouter"], 1⟩) ∧
    ProviderInst.ensureInitialized ⟨0, "google", false, none⟩ "Google AI" =
      .error ⟨"Google AI" ++ " provider not initialized", some "google", none⟩ :=
  getProvider_no_config_never_initialized
    ⟨[], ["openai", "google", "openrouter"], 0⟩ "google" "Google AI"
    (some ⟨"k2", none, none, none⟩) rfl (by decide) _ _ rfl

/-! ## C7 — pricing cache validity boundary -/

/-- C7 (counterexample): a cache with `lastUpdated = 0` and a 24-hour TTL
at `now = 5` ms satisfies the claim's validity formula
`now - lastUpdated < ttlHours * 3600000`, yet `isPricingCacheValid`
judges it invalid — the guard `if (!cache || !cache.lastUpdated)` rejects
a falsy (zero) timestamp unconditionally, so validity is not equivalent
to the formula for every cache. -/
theorem pricingCacheValidity_counterexample :
    isPricingCacheValid (some ⟨0, some 24, []⟩) 5 = false ∧
    (5 : ℤ) - (0 : Nat) < (24 : ℤ) * 3600000 :=
  ⟨rfl, by norm_num⟩

/-- C7 (amended): a present cache with a recorded non-zero timestamp is
valid iff
`now - lastUpdated < ttlHours * 3600000`; the boundary instances
`lastUpdated = now - ttl - 1` (invalid) and `lastUpdated = now` (valid)
hold; and `ensurePricingAvailable` returns a valid cache unmodified with
no refresh performed. -/
theorem pricingCacheValidity_spec (c : PricingCache) (now : Nat) :
    (c.lastUpdated ≠ 0 →
      (isPricingCacheValid (some c) now = true ↔
        (now : ℤ) - c.lastUpdated <
          (c.ttlHours.getD DEFAULT_CACHE_TTL_HOURS : ℤ) * 3600000)) ∧
    (∀ t ms, 1 ≤ t → t * 3600000 + 1 ≤ now →
      isPricingCacheValid (some ⟨now - t * 3600000 - 1, some t, ms⟩) now =
        false) ∧
    (∀ t ms, 1 ≤ t → 1 ≤ now →
      isPricingCacheValid (some ⟨now, some t, ms⟩) now = true) ∧
    (∀ cp fetched, isPricingCacheValid (some cp) now = true →
      ensurePricingAvailable ⟨some cp⟩ now fetched = (cp, false)) := by
  refine ⟨?_, ?_, ?_, ?_⟩
  · intro h0
    simp only [isPricingCacheValid, h0, if_false, decide_eq_true_eq]
    constructor <;> intro h <;> omega
  · intro t ms ht hnow
    by_cases h0 : now - t * 3600000 - 1 = 0
    · simp [isPricingCacheValid, h0]
    · simp only [isPricingCacheValid, h0, if_false, decide_eq_false_iff_not,
        not_lt, Option.getD_some]
      have hcast : ((now - t * 3600000 - 1 : Nat) : ℤ) =
          (now : ℤ) - t * 3600000 - 1 := by omega
      rw [hcast]
      omega
  · intro t ms ht hnow
    simp only [isPricingCacheValid, Option.getD_some]
    have h0 : ¬ (now = 0) := by omega
    simp only [h0, if_false, decide_eq_true_eq]
    have : (0 : ℤ) < t * (60 * 60 * 1000) := by positivity
    omega
  · intro cp fetched hv
    simp [ensurePricingAvailable, hv]

/-- Witness for C7: the two boundary instances at `now = 10⁸` ms with a
24-hour TTL, and the no-refresh behavior on the valid cache. -/
theorem pricingCacheValidity_spec_witness :
    isPricingCacheValid
      (some ⟨100000000 - 24 * 3600000 - 1, some 24, []⟩) 100000000 = false ∧
    isPricingCacheValid (some ⟨100000000, some 24, []⟩) 100000000 = true ∧
    ensurePricingAvailable ⟨some ⟨100000000, some 24, []⟩⟩ 100000000
      ⟨0, none, []⟩ = (⟨100000000, some 24, []⟩, false) := by
  have h := pricingCacheValidity_spec ⟨100000000, some 24, []⟩ 100000000
  refine ⟨(pricingCacheValidity_spec ⟨0, none, []⟩ 100000000).2.1 24 []
      (by norm_num) (by norm_num),
    h.2.2.1 24 [] (by norm_num) (by norm_num), ?_⟩
  exact h.2.2.2 ⟨100000000, some 24, []⟩ ⟨0, none, []⟩
    (h.2.2.1 24 [] (by norm_num) (by norm_num))

/-! ## C2 — retry executor behaviour -/

/-- Unfolding `fetchWithRetryAux` when the budget is exhausted. -/
theorem fetchWithRetryAux_stop {E R : Type} (attempt : Nat → Except E R)
    (N i : Nat) (le : Option E) (h : ¬ i < N) :
    fetchWithRetryAux attempt N i le = ⟨.error le, [], i⟩ := by
  rw [fetchWithRetryAux]
  simp [h]

/-- Unfolding `fetchWithRetryAux` on a successful attempt. -/
theorem fetchWithRetryAux_ok {E R : Type} (attempt : Nat → Except E R)
    (N i : Nat) (le : Option E) (r : R) (h : i < N) (ha : attempt i = .ok r) :
    fetchWithRetryAux attempt N i le = ⟨.ok r, [], i + 1⟩ := by
  rw [fetchWithRetryAux]
  simp [h, ha]

/-- Unfolding `fetchWithRetryAux` on a failed attempt. -/
theorem fetchWithRetryAux_err {E R : Type} (attempt : Nat → Except E R)
    (N i : Nat) (le : Option E) (e : E) (h : i < N) (ha : attempt i = .error e) :
    fetchWithRetryAux attempt N i le =
      ⟨(fetchWithRetryAux attempt N (i + 1) (some e)).result,
       (if i < N - 1 then [1000 * (i + 1)] else []) ++
         (fetchWithRetryAux attempt N (i + 1) (some e)).sleeps,
       (fetchWithRetryAux attempt N (i + 1) (some e)).attemptsMade⟩ := by
  rw [fetchWithRetryAux]
  simp [h, ha]

/-- A run whose attempts all fail before a successful attempt `k < N`
returns attempt `k`'s result, having slept `1000·(j+1)` ms after each
failed attempt `j`. -/
theorem retry_success_general {E R : Type} (attempt : Nat → Except E R)
    (N k : Nat) (r : R) (hkN : k < N) (hok : attempt k = .ok r) :
    ∀ d i le, k - i = d → i ≤ k →
      (∀ j, i ≤ j → j < k → ∃ e, attempt j = .error e) →
      fetchWithRetryAux attempt N i le =
        ⟨.ok r, (List.range' i (k - i)).map (fun j => 1000 * (j + 1)), k + 1⟩ := by
  intro d
  induction d with
  | zero =>
    intro i le hd hik _
    have hik' : i = k := by omega
    subst hik'
    rw [fetchWithRetryAux_ok attempt N i le r hkN hok]
    simp [hd]
  | succ d ih =>
    intro i le hd hik hfail
    have hik' : i < k := by omega
    obtain ⟨e, he⟩ := hfail i (Nat.le_refl i) hik'
    rw [fetchWithRetryAux_err attempt N i le e (by omega) he]
    rw [ih (i + 1) (some e) (by omega) (by omega)
      (fun j hj1 hj2 => hfail j (by omega) hj2)]
    have hiN1 : i < N - 1 := by omega
    simp only [hiN1, if_true]
    rw [show k - i = (k - (i + 1)) + 1 from by omega, List.range'_succ,
      List.map_cons, List.singleton_append]

/-- A run whose `N` attempts all fail re-throws the last attempt's error,
sleeping only between consecutive attempts. -/
theorem retry_allfail_general {E R : Type} (attempt : Nat → Except E R)
    (N : Nat) (eL : E) (hlast : attempt (N - 1) = .error eL) :
    ∀ d i le, N - 1 - i = d → i < N →
      (∀ j, i ≤ j → j < N → ∃ e, attempt j = .error e) →
      fetchWithRetryAux attempt N i le =
        ⟨.error (some eL),
         (List.range' i (N - 1 - i)).map (fun j => 1000 * (j + 1)), N⟩ := by
  intro d
  induction d with
  | zero =>
    intro i le hd hiN hfail
    have hi : i = N - 1 := by omega
    subst hi
    rw [fetchWithRetryAux_err attempt N (N - 1) le eL hiN hlast]
    rw [fetchWithRetryAux_stop attempt N (N - 1 + 1) (some eL) (by omega)]
    simp [hd]
    omega
  | succ d ih =>
    intro i le hd hiN hfail
    have hi : i < N - 1 := by omega
    obtain ⟨e, he⟩ := hfail i (Nat.le_refl i) (by omega)
    rw [fetchWithRetryAux_err attempt N i le e hiN he]
    rw [ih (i + 1) (some e) (by omega) (by omega)
      (fun j hj1 hj2 => hfail j (by omega) hj2)]
    simp only [hi, if_true]
    rw [show N - 1 - i = (N - 1 - (i + 1)) + 1 from by omega, List.range'_succ,
      List.map_cons, List.singleton_append]

/-- The loop executes at most `N` attempts. -/
theorem retry_attempts_le {E R : Type} (attempt : Nat → Except E R) (N : Nat) :
    ∀ d i le, N - i = d → i ≤ N →
      (fetchWithRetryAux attempt N i le).attemptsMade ≤ N := by
  intro d
  induction d with
  | zero =>
    intro i le hd hiN
    rw [fetchWithRetryAux_stop attempt N i le (by omega)]
    exact hiN
  | succ d ih =>
    intro i le hd hiN
    have hiN' : i < N := by omega
    cases ha : attempt i with
    | ok r =>
      rw [fetchWithRetryAux_ok attempt N i le r hiN' ha]
      exact hiN'
    | error e =>
      rw [fetchWithRetryAux_err attempt N i le e hiN' ha]
      exact ih (i + 1) (some e) (by omega) (by omega)

/-- C2: with budget `N = retries ?? config.maxRetries ?? 3`, a call
failing on a prefix of attempts and succeeding on attempt `k < N` (0-based)
returns attempt `k`'s result after sleeps of `1000·1, …, 1000·k` ms; a call
failing on all `N` attempts re-throws the last attempt's error unchanged
after sleeps `1000·1, …, 1000·(N-1)`; the number of attempts never exceeds
`N`; and the budget defaults to 3, overridden by the config and then by
the per-call argument. -/
theorem fetchWithRetry_spec {E R : Type} (attempt : Nat → Except E R)
    (retries configMaxRetries : Option Nat) :
    (∀ k r, k < resolveMaxRetries retries configMaxRetries →
      (∀ j, j < k → ∃ e, attempt j = .error e) → attempt k = .ok r →
      fetchWithRetry attempt retries configMaxRetries =
        ⟨.ok r, (List.range k).map (fun j => 1000 * (j + 1)), k + 1⟩) ∧
    (∀ eL, 0 < resolveMaxRetries retries configMaxRetries →
      (∀ j, j < resolveMaxRetries retries configMaxRetries →
        ∃ e, attempt j = .error e) →
      attempt (resolveMaxRetries retries configMaxRetries - 1) = .error eL →
      fetchWithRetry attempt retries configMaxRetries =
        ⟨.error (some eL),
         (List.range (resolveMaxRetries retries configMaxRetries - 1)).map
           (fun j => 1000 * (j + 1)),
         resolveMaxRetries retries configMaxRetries⟩) ∧
    (fetchWithRetry attempt retries configMaxRetries).attemptsMade ≤
      resolveMaxRetries retries configMaxRetries ∧
    resolveMaxRetries none none = 3 ∧
    (∀ m, resolveMaxRetries none (some m) = m) ∧
    (∀ n c, resolveMaxRetries (some n) c = n) := by
  refine ⟨?_, ?_, ?_, rfl, fun m => rfl, fun n c => rfl⟩
  · intro k r hk hfail hok
    unfold fetchWithRetry
    rw [retry_success_general attempt _ k r hk hok k 0 none rfl (Nat.zero_le k)
      (fun j hj1 hj2 => hfail j hj2)]
    rw [List.range_eq_range']
    simp
  · intro eL hN hfail hlast
    unfold fetchWithRetry
    rw [retry_allfail_general attempt _ eL hlast
      (resolveMaxRetries retries configMaxRetries - 1) 0 none rfl hN
      (fun j hj1 hj2 => hfail j hj2)]
    rw [List.range_eq_range']
    simp
  · exact retry_attempts_le attempt _ (resolveMaxRetries retries configMaxRetries)
      0 none rfl (Nat.zero_le _)

/-- Witness for C2: with the default budget of 3, an attempt function
failing twice then succeeding returns the third result after sleeping
1 s and 2 s; one failing always re-throws attempt 3's error. -/
theorem fetchWithRetry_spec_witness :
    fetchWithRetry (fun j => if j < 2 then (Except.error j : Except Nat Nat)
      else .ok 42) none none = ⟨.ok 42, [1000, 2000], 3⟩ ∧
    fetchWithRetry (fun j => (Except.error j : Except Nat Nat)) none none =
      ⟨.error (some 2), [1000, 2000], 3⟩ := by
  constructor
  · have h := (fetchWithRetry_spec
      (fun j => if j < 2 then (Except.error j : Except Nat Nat) else .ok 42)
      none none).1 2 42 (by decide)
      (fun j hj => ⟨j, by simp [hj]⟩) (by norm_num)
    simpa using h
  · have h := (fetchWithRetry_spec
      (fun j => (Except.error j : Except Nat Nat)) none none).2.1 2
      (by decide) (fun j hj => ⟨j, rfl⟩) rfl
    simpa using h

/-! ## C3 / C10 — SSE decoder round-trip and trailing-buffer discard -/

/-- A text with no newline splits into no complete line and itself as the
remaining buffer. -/
theorem splitNL_no_newline (l : List Char) (h : ∀ c ∈ l, c ≠ '\n') :
    splitNL l = ([], l) := by
  induction l with
  | nil => rfl
  | cons c rest ih =>
    have hc : c ≠ '\n' := h c (by simp)
    have hrest := ih (fun x hx => h x (by simp [hx]))
    simp [splitNL, hc, hrest]

/-- The buffer left by `splitNL` never contains a newline. -/
theorem splitNL_buf_no_newline (l : List Char) :
    ∀ c ∈ (splitNL l).2, c ≠ '\n' := by
  induction l with
  | nil => simp [splitNL]
  | cons c rest ih =>
    by_cases hc : c = '\n'
    · subst hc
      simpa [splitNL] using ih
    · rcases hrest : splitNL rest with ⟨lines, buf⟩
      cases lines with
      | nil =>
        simp only [splitNL, hc, hrest]
        intro x hx
        rcases List.mem_cons.mp hx with hx | hx
        · subst hx; exact hc
        · exact ih x (by rw [hrest]; exact hx)
      | cons l0 ls =>
        simp only [splitNL, hc, hrest]
        intro x hx
        exact ih x (by rw [hrest]; exact hx)

/-- Appending a final newline-free chunk to the source never changes the
decoder's output: the fragment only ever sits in the buffer. -/
theorem sseRunAux_snoc_fragment (proc : List Char → Option String)
    (t : List Char) (ht : ∀ c ∈ t, c ≠ '\n') :
    ∀ cs buf, (∀ c ∈ buf, c ≠ '\n') →
      sseRunAux proc buf (cs ++ [t]) = sseRunAux proc buf cs := by
  intro cs
  induction cs with
  | nil =>
    intro buf hbuf
    have hall : ∀ c ∈ buf ++ t, c ≠ '\n' := by
      intro c hcm
      rcases List.mem_append.mp hcm with hcm | hcm
      · exact hbuf c hcm
      · exact ht c hcm
    simp [sseRunAux, sseStep, splitNL_no_newline (buf ++ t) hall]
  | cons c cs ih =>
    intro buf hbuf
    simp only [List.cons_append, sseRunAux, List.append_eq]
    rw [ih (sseStep proc buf c).1 (splitNL_buf_no_newline (buf ++ c))]

/-- C10: when the byte stream ends, a final `data: …` fragment not
terminated by a newline is discarded — it is never parsed or yielded — in
both the OpenAI/OpenRouter decoder and the Google decoder. -/
theorem sse_trailing_partial_discarded (cs : List (List Char)) (t : List Char)
    (ht : ∀ c ∈ t, c ≠ '\n') :
    parseSSEStream (cs ++ [t]) = parseSSEStream cs ∧
    parseGoogleSSEStream (cs ++ [t]) = parseGoogleSSEStream cs :=
  ⟨sseRunAux_snoc_fragment processLineChat t ht cs [] (by simp),
   sseRunAux_snoc_fragment processLineGoogle t ht cs [] (by simp)⟩

/-- Witness for C10: an unterminated second payload line (content
`"lost"`) leaves the output of the terminated first line unchanged. -/
theorem sse_trailing_partial_discarded_witness :
    parseSSEStream
      ["data: \x7b\"choices\":[\x7b\"delta\":\x7b\"content\":\"Hi\"\x7d\x7d]\x7d\n".data,
       "data: \x7b\"choices\":[\x7b\"delta\":\x7b\"content\":\"lost\"\x7d\x7d]\x7d".data] =
      parseSSEStream
        ["data: \x7b\"choices\":[\x7b\"delta\":\x7b\"content\":\"Hi\"\x7d\x7d]\x7d\n".data] :=
  (sse_trailing_partial_discarded
    ["data: \x7b\"choices\":[\x7b\"delta\":\x7b\"content\":\"Hi\"\x7d\x7d]\x7d\n".data]
    "data: \x7b\"choices\":[\x7b\"delta\":\x7b\"content\":\"lost\"\x7d\x7d]\x7d".data
    (by decide)).1

/-- C3: feeding the decoder the line
`data: {"choices":[{"delta":{"content":"Hi"}}]}` then `data: [DONE]`
(each newline-terminated) yields exactly `["Hi"]`; inserting a
`data: not-json` line changes nothing (skipped silently, no yield, no
abort); and any line not starting with the `"data: "` prefix is ignored
entirely. -/
theorem sse_round_trip :
    parseSSEStream
      ["data: \x7b\"choices\":[\x7b\"delta\":\x7b\"content\":\"Hi\"\x7d\x7d]\x7d\n".data,
       "data: [DONE]\n".data] = ["Hi"] ∧
    parseSSEStream
      ["data: \x7b\"choices\":[\x7b\"delta\":\x7b\"content\":\"Hi\"\x7d\x7d]\x7d\n".data,
       "data: not-json\n".data,
       "data: [DONE]\n".data] = ["Hi"] ∧
    (∀ line, "data: ".data.isPrefixOf line = false →
      processLineChat line = none) := by
  refine ⟨by decide, by decide, ?_⟩
  intro line h
  simp [processLineChat, h]

/-- Witness for C3: the round trip, and the prefix guard on a concrete
non-`data: ` line. -/
theorem sse_round_trip_witness :
    parseSSEStream
      ["data: \x7b\"choices\":[\x7b\"delta\":\x7b\"content\":\"Hi\"\x7d\x7d]\x7d\n".data,
       "data: [DONE]\n".data] = ["Hi"] ∧
    processLineChat "event: ping".data = none :=
  ⟨sse_round_trip.1, sse_round_trip.2.2 "event: ping".data (by decide)⟩

/-! ## C8 — media filename suffixing -/

/-- Decimal value of a digit string, inverse to `natDigitsAux`. -/
def digitsVal (l : List Char) : Nat :=
  l.foldl (fun acc c => acc * 10 + (c.toNat - 48)) 0

/-- Folding one more digit multiplies by ten and adds it. -/
theorem digitsVal_snoc (l : List Char) (c : Char) :
    digitsVal (l ++ [c]) = digitsVal l * 10 + (c.toNat - 48) := by
  simp [digitsVal, List.foldl_append]

/-- Digit characters round-trip through `Char.ofNat`. -/
theorem char_ofNat_digit_toNat (m : Nat) (hm : m < 10) :
    (Char.ofNat (48 + m)).toNat = 48 + m := by
  interval_cases m <;> decide

/-- The digit expansion evaluates back to the number. -/
theorem digitsVal_natDigitsAux : ∀ fuel n, n < fuel →
    digitsVal (natDigitsAux fuel n) = n := by
  intro fuel
  induction fuel with
  | zero => intro n h; omega
  | succ fuel ih =>
    intro n h
    by_cases h10 : n < 10
    · simp only [natDigitsAux, h10, if_true, digitsVal, List.foldl_cons,
        List.foldl_nil]
      have := char_ofNat_digit_toNat n h10
      omega
    · simp only [natDigitsAux, h10, if_false]
      rw [digitsVal_snoc, ih (n / 10) (by omega)]
      have := char_ofNat_digit_toNat (n % 10) (by omega)
      omega

/-- Distinct indices have distinct digit strings. -/
theorem natDigits_injective : Function.Injective natDigits := by
  intro a b hab
  have ha := digitsVal_natDigitsAux (a + 1) a (by omega)
  have hb := digitsVal_natDigitsAux (b + 1) b (by omega)
  unfold natDigits at hab
  rw [hab] at ha
  omega

/-- When the suffix regex matches, distinct indices give distinct suffixed
filenames. -/
theorem suffixFilename_injective (p : String) (stem ext : List Char)
    (hs : splitLastDot p.data = some (stem, ext)) :
    Function.Injective (fun i => suffixFilename p i) := by
  intro i j hij
  simp only [suffixFilename, hs] at hij
  have hd : stem ++ '_' :: natDigits i ++ '.' :: ext =
      stem ++ '_' :: natDigits j ++ '.' :: ext := congrArg String.data hij
  simp only [List.append_cancel_left_eq, List.append_cancel_right_eq,
    List.cons.injEq, true_and, and_true] at hd
  exact natDigits_injective hd

/-- C8 (counterexample): the OpenRouter adapter saves two inline images
requested at `img.png` both under `img.png` — the filenames are not
pairwise distinct and are not the suffixed names the claim requires. -/
theorem openrouter_suffix_counterexample :
    openrouterImageFilenames (some "img.png") 2 =
      [some "img.png", some "img.png"] ∧
    ¬ (openrouterImageFilenames (some "img.png") 2).Nodup ∧
    openrouterImageFilenames (some "img.png") 2 ≠
      [some "img_0.png", some "img_1.png"] := by
  refine ⟨by decide, by decide, by decide⟩

/-- C8 (amended): for the OpenAI and Google adapters, when the requested
name has an extension (the regex `(\.[^.]+)$` matches), `n > 1` results
are saved under the pairwise-distinct suffixed names `name_0.ext`,
`name_1.ext`, …, and a single result keeps the exact requested name; the
OpenRouter adapter instead saves every result under the exact requested
name. -/
theorem imageFilenames_spec (p : String) (n : Nat) (hp : p ≠ "") :
    (1 < n → ∀ stem ext, splitLastDot p.data = some (stem, ext) →
      suffixedImageFilenames (some p) n =
        (List.range n).map (fun i => some (suffixFilename p i)) ∧
      (suffixedImageFilenames (some p) n).Nodup) ∧
    suffixedImageFilenames (some p) 1 = [some p] ∧
    openrouterImageFilenames (some p) n = List.replicate n (some p) := by
  have htr : strTruthy (some p) = true := by simp [strTruthy, hp]
  refine ⟨?_, ?_, ?_⟩
  · intro hn stem ext hs
    have hmap : suffixedImageFilenames (some p) n =
        (List.range n).map (fun i => some (suffixFilename p i)) := by
      simp [suffixedImageFilenames, htr, hn]
    refine ⟨hmap, ?_⟩
    rw [hmap]
    exact List.Nodup.map
      ((Option.some_injective String).comp (suffixFilename_injective p stem ext hs))
      (List.nodup_range n)
  · simp [suffixedImageFilenames, htr]
  · simp [openrouterImageFilenames, htr, List.map_const', List.length_range]

/-- Witness for C8: two results at `img.png` become `img_0.png` and
`img_1.png` (distinct) for the suffixing adapters, a single result keeps
`img.png`, and OpenRouter repeats `img.png`. -/
theorem imageFilenames_spec_witness :
    suffixedImageFilenames (some "img.png") 2 =
      [some "img_0.png", some "img_1.png"] ∧
    (suffixedImageFilenames (some "img.png") 2).Nodup ∧
    suffixedImageFilenames (some "img.png") 1 = [some "img.png"] ∧
    openrouterImageFilenames (some "img.png") 3 =
      List.replicate 3 (some "img.png") := by
  refine ⟨?_, ?_, ?_, ?_⟩
  · rw [((imageFilenames_spec "img.png" 2 (by decide)).1 (by decide)
      "img".data "png".data (by decide)).1]
    decide
  · exact ((imageFilenames_spec "img.png" 2 (by decide)).1 (by decide)
      "img".data "png".data (by decide)).2
  · exact (imageFilenames_spec "img.png" 1 (by decide)).2.1
  · exact (imageFilenames_spec "img.png" 3 (by decide)).2.2

end AIRouter
